import Mathlib

/-!
Verification of the HRV4Intervals change-detection and schema-transformation
pipeline (`sync.py`, `intervals_api.py`).

Numeric questionnaire scores are modelled as exact rationals: every bin
boundary used by the pipeline (0, 2.5, 5, 7.5, 10) is exactly representable
in binary floating point, so comparisons against the boundaries agree with
the rational comparisons used here.  A missing value (pandas `NaN` on a
float column, `None` on an object column) is modelled as `Option.none`.
-/

namespace HRV4Intervals

/-! ## Scale mapper (`map_series`, `map_series_reverse` in sync.py) -/

/-- `np.linspace a b n`: `n` evenly spaced points from `a` to `b` inclusive. -/
def np_linspace (a b : ℚ) (n : ℕ) : List ℚ :=
  (List.range n).map (fun i => a + (b - a) * i / ((n : ℚ) - 1))

/-- Index (0-based) of the first upper bin edge that `x` does not exceed.
Used to model `pd.cut` with `right=True`: bin `j` is `(edges[j-1], edges[j]]`. -/
def cut_index (x : ℚ) : List ℚ → Option ℕ
  | [] => none
  | e :: es => if x ≤ e then some 0 else (cut_index x es).map (· + 1)

/-- `pd.cut(x, bins, right=True, include_lowest=True, labels=labels)` applied to
a single scalar `x`.  The first bin is the closed interval from `bins[0]` to
`bins[1]` (`include_lowest=True`); every later bin is half-open, closed on the
right (`right=True`).  A value below `bins[0]` or above the last edge falls in
no bin and yields a missing value. -/
def pd_cut (bins : List ℚ) (labels : List ℚ) (x : ℚ) : Option ℚ :=
  match bins with
  | [] => none
  | b0 :: upper =>
      if x < b0 then none
      else (cut_index x upper).bind (fun j => labels.get? j)

/-- `map_series` from sync.py, applied elementwise:
`pd.cut(series, np.linspace(0, 10, 5), right=True, include_lowest=True,
labels=range(1, 5))`.  `range(1, 5)` is `[1, 2, 3, 4]`. -/
def map_series (x : Option ℚ) : Option ℚ :=
  x.bind (pd_cut (np_linspace 0 10 5) [1, 2, 3, 4])

/-- `map_series_reverse` from sync.py, applied elementwise: same bins,
`labels=range(4, 0, -1)`, i.e. `[4, 3, 2, 1]`. -/
def map_series_reverse (x : Option ℚ) : Option ℚ :=
  x.bind (pd_cut (np_linspace 0 10 5) [4, 3, 2, 1])

/-! ## Date conversion (`map_series_american_to_iso_date` in sync.py) -/

/-- Python string slice `s[a:b]` (clamping, character based). -/
def pySlice (s : String) (a b : ℕ) : String :=
  ((s.data.drop a).take (b - a)).asString

/-- The lambda inside `map_series_american_to_iso_date`:
`lambda x: f"\x7bx[0:4]\x7d-\x7bx[8:10]\x7d-\x7bx[5:7]\x7d"`. -/
def american_to_iso_date (x : String) : String :=
  pySlice x 0 4 ++ "-" ++ pySlice x 8 10 ++ "-" ++ pySlice x 5 7

/-- `map_series_american_to_iso_date` from sync.py: the lambda mapped over a
whole column. -/
def map_series_american_to_iso_date (series : List String) : List String :=
  series.map american_to_iso_date

/-! ## Source data model

One row of the HRV4Training CSV after `pd.read_csv` and the header-whitespace
strip (`data.rename(columns=lambda x: x.strip())`); the strip only normalises
column names, so the structured row carries the already-stripped field names. -/

structure SourceRow where
  time : Option String
  date : String
  rMSSD : Option ℚ
  SDNN : Option ℚ
  muscle_soreness : Option ℚ
  fatigue : Option ℚ
  Stress : Option ℚ
  Mood : Option ℚ
  trainingMotivation : Option ℚ
  sleep_quality : Option ℚ
  custom_tag_1_name : Option String
  custom_tag_1_value : Option ℚ
  custom_tag_2_name : Option String
  custom_tag_2_value : Option ℚ
  custom_tag_3_name : Option String
  custom_tag_3_value : Option ℚ
  deriving DecidableEq

/-- The column `custom_tag_i_name` of a row, for `i = 1, 2, 3`. -/
def custom_name (i : ℕ) (r : SourceRow) : Option String :=
  match i with
  | 1 => r.custom_tag_1_name
  | 2 => r.custom_tag_2_name
  | 3 => r.custom_tag_3_name
  | _ => none

/-- The column `custom_tag_i_value` of a row, for `i = 1, 2, 3`. -/
def custom_value (i : ℕ) (r : SourceRow) : Option ℚ :=
  match i with
  | 1 => r.custom_tag_1_value
  | 2 => r.custom_tag_2_value
  | 3 => r.custom_tag_3_value
  | _ => none

/-! ## Custom-field unpivoter (lines 178-192 of sync.py)

After `data.set_index('date')` every column is a pandas Series indexed by the
date key; a Series with missing entries dropped is modelled as an association
list from key to value, in row order. -/

/-- Look up a key in a date-indexed series: the first entry with that key. -/
def series_get (s : List (String × ℚ)) (k : String) : Option ℚ :=
  (s.find? (fun p => p.1 = k)).map (fun p => p.2)

/-- `a.combine_first(b)`: a series over the union of the two key sets that
keeps `a`'s value wherever `a` has one and falls back to `b` elsewhere. -/
def combine_first (a b : List (String × ℚ)) : List (String × ℚ) :=
  a ++ b.filter (fun p => (series_get a p.1).isNone)

/-- `data[data[f'custom_tag_i_name'] == column][f'custom_tag_i_value'].dropna()`:
the slot-`i` values of the rows whose slot-`i` name equals `column`, keyed by
date, with missing values dropped. -/
def slot_series (data : List (String × SourceRow)) (i : ℕ) (column : String) :
    List (String × ℚ) :=
  data.filterMap (fun p =>
    if custom_name i p.2 = some column then
      (custom_value i p.2).map (fun v => (p.1, v))
    else none)

/-- The `column_data` series built by the inner loop for one tag name:
`column_data = pd.Series(dtype=float)` then, for `i = 1, 2, 3`,
`column_data = column_data.combine_first(slot_series data i column)`. -/
def column_series (data : List (String × SourceRow)) (column : String) :
    List (String × ℚ) :=
  combine_first
    (combine_first (combine_first [] (slot_series data 1 column))
      (slot_series data 2 column))
    (slot_series data 3 column)

/-- `data[column] = column_data`: the series aligned back onto `data`'s index,
rows without an entry receiving a missing value. -/
def aligned_column (data : List (String × SourceRow)) (column : String) :
    List (Option ℚ) :=
  data.map (fun p => series_get (column_series data column) p.1)

/-- `additional_columns`: the union, over `i = 1, 2, 3`, of the non-missing
values of `data[f'custom_tag_i_name']` (a Python set; modelled as a
duplicate-free list, here in slot-major encounter order). -/
def additional_columns (data : List (String × SourceRow)) : List String :=
  ((data.filterMap (fun p => custom_name 1 p.2)) ++
   (data.filterMap (fun p => custom_name 2 p.2)) ++
   (data.filterMap (fun p => custom_name 3 p.2))).dedup

/-! ## Schema transformer (`parse_dataframe_HRV_to_intervals`) -/

/-- The dataframe `data` as it stands after the custom-field loop: the
date-indexed source rows plus the custom columns the loop added to it. -/
structure IndexedData where
  rows : List (String × SourceRow)
  extra : List (String × List (Option ℚ))
  deriving DecidableEq

/-- A dataframe with a named index and named columns, each column aligned with
the index (the shape of `new_data`). -/
structure Frame where
  index : List String
  cols : List (String × List (Option ℚ))
  deriving DecidableEq

/-- Lines 162-192 of `parse_dataframe_HRV_to_intervals`: strip headers (a
no-op on the structured rows), drop rows with a missing `time`, convert the
dates, set the date index, and run the custom-field loop, which writes one
extra column per distinct observed tag name into `data`. -/
def unpivoted_data (data0 : List SourceRow) : IndexedData :=
  let data1 := data0.filter (fun r => r.time.isSome)
  let data2 := data1.map (fun r => { r with date := american_to_iso_date r.date })
  let rows := data2.map (fun r => (r.date, r))
  { rows := rows
    extra := (additional_columns rows).map (fun c => (c, aligned_column rows c)) }

/-- Lines 194-203: `new_data` is built from scratch and receives exactly the
columns of `hrv_to_intervals_map`, each either copied or passed through the
scale mapper.  (The custom columns added to `data` by the loop above are not
among them.) -/
def parse_dataframe_HRV_to_intervals (data0 : List SourceRow) : Frame :=
  let d := unpivoted_data data0
  { index := d.rows.map (fun p => p.1)
    cols :=
      [("hrv", d.rows.map (fun p => p.2.rMSSD)),
       ("hrvSDNN", d.rows.map (fun p => p.2.SDNN)),
       ("soreness", d.rows.map (fun p => map_series p.2.muscle_soreness)),
       ("fatigue", d.rows.map (fun p => map_series p.2.fatigue)),
       ("stress", d.rows.map (fun p => map_series p.2.Stress)),
       ("mood", d.rows.map (fun p => map_series_reverse p.2.Mood)),
       ("motivation", d.rows.map (fun p => map_series_reverse p.2.trainingMotivation)),
       ("sleepQuality", d.rows.map (fun p => map_series_reverse p.2.sleep_quality))] }

/-! ## Credential validators (`API.validate_athlete_id`, `API.validate_api_key`
in intervals_api.py)

Python's `re.match` anchors a pattern at the start of the string only: it
succeeds whenever some prefix of the string matches, regardless of what
follows.  The two patterns are simple enough to model directly (over the
ASCII word characters `[A-Za-z0-9_]`). -/

/-- A character matched by the regex class `\w` (ASCII fragment). -/
def isWordChar (c : Char) : Bool :=
  c.isAlphanum || c = '_'

/-- `bool(re.match(r'i\d+', athlete_id))`: true exactly when the string starts
with the letter `i` followed by at least one digit (a prefix match; trailing
characters are unconstrained). -/
def validate_athlete_id (athlete_id : String) : Bool :=
  match athlete_id.data with
  | c :: d :: _ => c = 'i' && d.isDigit
  | _ => false

/-- `bool(re.match(r'\w{24}', api_key))`: true exactly when the string has at
least 24 characters and its first 24 characters are word characters (a prefix
match; trailing characters are unconstrained). -/
def validate_api_key (api_key : String) : Bool :=
  decide (24 ≤ api_key.data.length) && (api_key.data.take 24).all isWordChar

/-- Follows the claim's words, for comparison with `validate_athlete_id`: the
whole string is the letter `i` followed by digits and nothing else. -/
def athlete_id_exact_match (s : String) : Bool :=
  match s.data with
  | c :: rest => c = 'i' && !rest.isEmpty && rest.all Char.isDigit
  | [] => false

/-- Follows the claim's words, for comparison with `validate_api_key`: the
whole string is exactly 24 word characters. -/
def api_key_exact_match (s : String) : Bool :=
  decide (s.data.length = 24) && s.data.all isWordChar

/-! ## Sync orchestrator (`sync` and `run` in sync.py)

The Dropbox download, the md5 digest and `pd.read_csv` are external
collaborators; `sync` is modelled as a function of the digest function, the
CSV parser, the previously cached local file (if any) and the freshly
downloaded remote bytes.  The download overwrites the local copy, so the new
digest is the digest of the remote bytes. -/

/-- Abstract file content. -/
abbrev Bytes := List ℕ

/-- What one user's sync did after the change check. -/
inductive SyncOutcome where
  | unchanged
  | uploaded (table : Frame)
  deriving DecidableEq

/-- Number of writes to the destination service an outcome performs. -/
def uploads_performed (o : SyncOutcome) : ℕ :=
  match o with
  | .unchanged => 0
  | .uploaded _ => 1

/-- `sync` (lines 121-145 of sync.py): `old_hash` is the digest of the cached
local file when it exists and `None` otherwise; after the download the new
digest is computed from the fresh bytes; equal digests stop the run, anything
else transforms the parsed CSV and uploads it.  (Python's `None == new_hash`
is `False`, so a missing previous digest always proceeds.) -/
def sync (md5 : Bytes → ℕ) (read_csv : Bytes → List SourceRow)
    (localFile : Option Bytes) (remote : Bytes) : SyncOutcome :=
  let old_hash := localFile.map md5
  let new_hash := md5 remote
  if old_hash = some new_hash then .unchanged
  else .uploaded (parse_dataframe_HRV_to_intervals (read_csv remote))

/-- `run` (lines 110-118 of sync.py): each configured user's sync is attempted
inside a bare try/except; a raised error is caught, logged and the loop moves
on to the next user.  The per-user sync is abstracted as an `Except`-valued
action; `true` records a completed sync, `false` a caught failure. -/
def run_users (syncUser : String → Except String Unit) :
    List String → List (String × Bool)
  | [] => []
  | user :: rest =>
      (match syncUser user with
       | .ok _ => (user, true)
       | .error _ => (user, false)) :: run_users syncUser rest

/-! ## Concrete inputs used in the witnesses and counterexamples -/

/-- A source row with every optional field absent. -/
def blankRow : SourceRow :=
  { time := none, date := "", rMSSD := none, SDNN := none,
    muscle_soreness := none, fatigue := none, Stress := none, Mood := none,
    trainingMotivation := none, sleep_quality := none,
    custom_tag_1_name := none, custom_tag_1_value := none,
    custom_tag_2_name := none, custom_tag_2_value := none,
    custom_tag_3_name := none, custom_tag_3_value := none }

/-- The end-to-end example row: a full measurement session whose only custom
tag is "Alcohol" with value 1.0, in slot 1. -/
def exampleRow : SourceRow :=
  { blankRow with
    time := some "08:00", date := "2024/15/01",
    rMSSD := some (226/5), SDNN := some 60,
    muscle_soreness := some 3, fatigue := some 8, Stress := some 6,
    Mood := some 9, trainingMotivation := some 7, sleep_quality := some 2,
    custom_tag_1_name := some "Alcohol", custom_tag_1_value := some 1 }

/-- First of two sessions recorded on the same day. -/
def morningRow : SourceRow :=
  { blankRow with time := some "08:00", date := "2024/15/01", rMSSD := some 45 }

/-- Second of two sessions recorded on the same day. -/
def eveningRow : SourceRow :=
  { blankRow with time := some "21:00", date := "2024/15/01", rMSSD := some 50 }

/-- Row A of the unpivoter example: tag "X" sits in slot 1. -/
def rowTagInSlot1 : SourceRow :=
  { blankRow with
    time := some "08:00", date := "2024/14/01",
    custom_tag_1_name := some "X", custom_tag_1_value := some 1 }

/-- Row B of the unpivoter example: tag "X" sits in slot 2. -/
def rowTagInSlot2 : SourceRow :=
  { blankRow with
    time := some "08:00", date := "2024/15/01",
    custom_tag_2_name := some "X", custom_tag_2_value := some 2 }

/-- The unpivoter example frame: the two rows above, date-indexed. -/
def slotExampleData : List (String × SourceRow) :=
  [("2024-01-14", rowTagInSlot1), ("2024-01-15", rowTagInSlot2)]

/-! ## Facts about the bin edges -/

theorem np_linspace_0_10_5 : np_linspace 0 10 5 = [0, 5/2, 5, 15/2, 10] := by
  simp only [np_linspace, List.range_succ, List.range_zero]
  norm_num

/-- Closed form of the forward scalar map on present values. -/
theorem map_series_eq (x : ℚ) :
    map_series (some x) =
      if x < 0 then none
      else if x ≤ 5/2 then some 1
      else if x ≤ 5 then some 2
      else if x ≤ 15/2 then some 3
      else if x ≤ 10 then some 4
      else none := by
  simp only [map_series, Option.bind, pd_cut, np_linspace_0_10_5, cut_index]
  split_ifs with h0 h1 h2 h3 h4 <;> simp_all [cut_index]

/-- Closed form of the reverse scalar map on present values. -/
theorem map_series_reverse_eq (x : ℚ) :
    map_series_reverse (some x) =
      if x < 0 then none
      else if x ≤ 5/2 then some 4
      else if x ≤ 5 then some 3
      else if x ≤ 15/2 then some 2
      else if x ≤ 10 then some 1
      else none := by
  simp only [map_series_reverse, Option.bind, pd_cut, np_linspace_0_10_5, cut_index]
  split_ifs with h0 h1 h2 h3 h4 <;> simp_all [cut_index]

/-! ## Lemmas about the unpivoter -/

theorem series_get_nil (k : String) : series_get [] k = none := rfl

/-- A lookup distributes over append: the left series wins when it has the
key. -/
theorem series_get_append (a b : List (String × ℚ)) (k : String) :
    series_get (a ++ b) k =
      match series_get a k with
      | some v => some v
      | none => series_get b k := by
  cases hfa : List.find? (fun p => decide (p.1 = k)) a with
  | some p =>
      have ha : series_get a k = some p.2 := by simp [series_get, hfa]
      rw [ha]
      show Option.map (fun q => q.2)
          (List.find? (fun q => decide (q.1 = k)) (a ++ b)) = some p.2
      rw [List.find?_append, hfa]
      rfl
  | none =>
      have ha : series_get a k = none := by simp [series_get, hfa]
      rw [ha]
      show Option.map (fun q => q.2)
          (List.find? (fun q => decide (q.1 = k)) (a ++ b)) = series_get b k
      rw [List.find?_append, hfa, Option.none_or]
      rfl

/-- Filtering with a predicate that holds on every entry carrying key `k`
does not change the first entry found for `k`. -/
theorem find?_filter_of_key (b : List (String × ℚ)) (q : String × ℚ → Bool)
    (k : String) (hq : ∀ p : String × ℚ, p.1 = k → q p = true) :
    List.find? (fun p => p.1 = k) (b.filter q) =
      List.find? (fun p => p.1 = k) b := by
  induction b with
  | nil => rfl
  | cons x t ih =>
      by_cases hk : x.1 = k
      · simp [List.filter_cons, hq x hk, List.find?, hk]
      · by_cases hx : q x = true
        · simp only [List.filter_cons, hx, if_true]
          simp [List.find?, hk, ih]
        · simp only [List.filter_cons, hx, if_false]
          simp [List.find?, hk, ih]

/-- `series_get` version of `find?_filter_of_key`. -/
theorem series_get_filter (b : List (String × ℚ)) (q : String × ℚ → Bool)
    (k : String) (hq : ∀ p : String × ℚ, p.1 = k → q p = true) :
    series_get (b.filter q) k = series_get b k := by
  unfold series_get
  rw [find?_filter_of_key b q k hq]

/-- A lookup in `a.combine_first(b)` returns `a`'s entry when `a` has one and
`b`'s entry otherwise. -/
theorem series_get_combine_first (a b : List (String × ℚ)) (k : String) :
    series_get (combine_first a b) k =
      match series_get a k with
      | some v => some v
      | none => series_get b k := by
  unfold combine_first
  rw [series_get_append]
  cases ha : series_get a k with
  | some v => rfl
  | none =>
      have hq : ∀ p : String × ℚ, p.1 = k →
          ((series_get a p.1).isNone) = true := by
        intro p hp
        rw [hp, ha]
        rfl
      exact series_get_filter b _ k hq

/-- Unfolding `slot_series` over the first row. -/
theorem slot_series_cons (p : String × SourceRow) (t : List (String × SourceRow))
    (i : ℕ) (c : String) :
    slot_series (p :: t) i c =
      (if custom_name i p.2 = some c then
        ((custom_value i p.2).map (fun v => (p.1, v))).toList
       else []) ++ slot_series t i c := by
  unfold slot_series
  rw [List.filterMap_cons]
  by_cases hc : custom_name i p.2 = some c
  · rw [if_pos hc, if_pos hc]
    cases hv : custom_value i p.2 <;> simp [hv]
  · rw [if_neg hc, if_neg hc]
    rfl

/-- A key that appears in the slot-`i` series of a frame is one of the frame's
keys. -/
theorem keys_slot_series (t : List (String × SourceRow)) (i : ℕ) (c : String)
    (q : String × ℚ) (hq : q ∈ slot_series t i c) :
    q.1 ∈ t.map (fun p => p.1) := by
  unfold slot_series at hq
  rcases List.mem_filterMap.mp hq with ⟨u, hu, hfu⟩
  by_cases hc : custom_name i u.2 = some c
  · rw [if_pos hc] at hfu
    rcases Option.map_eq_some'.mp hfu with ⟨v, _, hv2⟩
    rw [← hv2]
    exact List.mem_map_of_mem (fun p => p.1) hu
  · rw [if_neg hc] at hfu
    cases hfu

/-- In a date-indexed frame with pairwise distinct keys, the slot-`i` series
for a tag holds, at row `(k, r)`\'s key, exactly row `r`\'s slot-`i` value when
that slot carries the tag, and nothing otherwise. -/
theorem series_get_slot (data : List (String × SourceRow))
    (hd : (data.map (fun p => p.1)).Nodup) (i : ℕ) (c k : String) (r : SourceRow)
    (h : (k, r) ∈ data) :
    series_get (slot_series data i c) k =
      if custom_name i r = some c then custom_value i r else none := by
  induction data with
  | nil => cases h
  | cons p t ih =>
      simp only [List.map_cons, List.nodup_cons] at hd
      rw [slot_series_cons, series_get_append]
      rcases List.mem_cons.mp h with h1 | h2
      · subst h1
        have hnot : series_get (slot_series t i c) k = none := by
          unfold series_get
          rw [Option.map_eq_none', List.find?_eq_none]
          intro q hq
          simp only [decide_eq_true_eq]
          intro hqk
          exact hd.1 (hqk ▸ keys_slot_series t i c q hq)
        rw [hnot]
        by_cases hc : custom_name i r = some c
        · cases hv : custom_value i r with
          | none => simp [hc, series_get]
          | some v => simp [hc, series_get, List.find?]
        · simp [hc, series_get]
      · have hkt : k ∈ t.map (fun p => p.1) :=
          List.mem_map_of_mem (fun p => p.1) h2
        have hne : ¬ p.1 = k := fun hpk => hd.1 (hpk ▸ hkt)
        rw [ih hd.2 h2]
        by_cases hc : custom_name i p.2 = some c
        · cases hv : custom_value i p.2 with
          | none => simp [hc, series_get]
          | some v => simp [hc, series_get, List.find?, hne]
        · simp [hc, series_get]

/-! ## Claim theorems -/

/-- C5. For every batch of source rows, the custom-field unpivot produces,
for each distinct tag name, a single value column aligned by row,
independent of which of the three slots carried that tag in each row: at any
row `(k, r)` of a frame with pairwise distinct date keys, the merged column
for tag `c` holds the value of the lowest-numbered slot of `r` whose name is
`c` and whose value is present, and an absent value when no slot matches;
the aligned column has one entry per row. -/
theorem unpivot_merges_slots_by_name (data : List (String × SourceRow))
    (hd : (data.map (fun p => p.1)).Nodup) (c k : String) (r : SourceRow)
    (h : (k, r) ∈ data) :
    (aligned_column data c).length = data.length ∧
    series_get (column_series data c) k =
      (if custom_name 1 r = some c ∧ (custom_value 1 r).isSome then
        custom_value 1 r
       else if custom_name 2 r = some c ∧ (custom_value 2 r).isSome then
        custom_value 2 r
       else if custom_name 3 r = some c ∧ (custom_value 3 r).isSome then
        custom_value 3 r
       else none) := by
  constructor
  · simp [aligned_column]
  · unfold column_series
    rw [series_get_combine_first, series_get_combine_first,
        series_get_combine_first, series_get_nil,
        series_get_slot data hd 1 c k r h, series_get_slot data hd 2 c k r h,
        series_get_slot data hd 3 c k r h]
    by_cases h1 : custom_name 1 r = some c <;>
      by_cases h2 : custom_name 2 r = some c <;>
        by_cases h3 : custom_name 3 r = some c <;>
          cases hv1 : custom_value 1 r <;>
            cases hv2 : custom_value 2 r <;>
              cases hv3 : custom_value 3 r <;>
                simp [h1, h2, h3]

/-- Witness for C5: tag "X" sits in slot 1 of the first row and in slot 2 of
the second, yet both values land in the single "X" column, keyed by each
row's date. -/
theorem unpivot_merges_slots_by_name_witness :
    series_get (column_series slotExampleData "X") "2024-01-14" = some 1 ∧
    series_get (column_series slotExampleData "X") "2024-01-15" = some 2 := by
  constructor
  · have h := (unpivot_merges_slots_by_name slotExampleData (by decide) "X"
      "2024-01-14" rowTagInSlot1 (by decide)).2
    rw [h]
    decide
  · have h := (unpivot_merges_slots_by_name slotExampleData (by decide) "X"
      "2024-01-15" rowTagInSlot2 (by decide)).2
    rw [h]
    decide

/-- C3 counterexample. The claim places 2.5 in the second bin (code 2), but
`pd.cut` with `right=True` closes each bin on the right: the forward map sends
2.5 to code 1, so the claimed half-open binning `[2.5, 5) = 2` is false at
x = 2.5. -/
theorem forward_map_half_open_counterexample :
    map_series (some (5/2)) = some 1 ∧ map_series (some (5/2)) ≠ some 2 := by
  rw [map_series_eq]
  norm_num

/-- C3 amended. The forward scale map assigns code 1 on the closed interval
[0, 2.5], code 2 on (2.5, 5], code 3 on (5, 7.5], and code 4 on (7.5, 10]:
bins are closed on the right, with 0 included in the first bin. -/
theorem forward_map_bins (x : ℚ) :
    (0 ≤ x → x ≤ 5/2 → map_series (some x) = some 1) ∧
    (5/2 < x → x ≤ 5 → map_series (some x) = some 2) ∧
    (5 < x → x ≤ 15/2 → map_series (some x) = some 3) ∧
    (15/2 < x → x ≤ 10 → map_series (some x) = some 4) := by
  rw [map_series_eq]
  refine ⟨fun h1 h2 => ?_, fun h1 h2 => ?_, fun h1 h2 => ?_, fun h1 h2 => ?_⟩ <;>
    split_ifs <;> first | rfl | linarith

/-- Witness for C3 amended: each bin hit at one concrete value, the shared
boundary 2.5 landing in bin 1. -/
theorem forward_map_bins_witness :
    map_series (some 1) = some 1 ∧ map_series (some (5/2)) = some 1 ∧
    map_series (some 4) = some 2 ∧ map_series (some 6) = some 3 ∧
    map_series (some 10) = some 4 :=
  ⟨(forward_map_bins 1).1 (by norm_num) (by norm_num),
   (forward_map_bins (5/2)).1 (by norm_num) (by norm_num),
   (forward_map_bins 4).2.1 (by norm_num) (by norm_num),
   (forward_map_bins 6).2.2.1 (by norm_num) (by norm_num),
   (forward_map_bins 10).2.2.2 (by norm_num) (by norm_num)⟩

/-- C6. For every value x in the valid input interval [0, 10], the reverse
scale map equals 5 minus the forward scale map. -/
theorem reverse_map_eq_five_sub_forward (x : ℚ) (h0 : 0 ≤ x) (h10 : x ≤ 10) :
    ∃ k : ℚ, map_series (some x) = some k ∧
      map_series_reverse (some x) = some (5 - k) := by
  rw [map_series_eq, map_series_reverse_eq]
  split_ifs with hneg ha hb hc
  · exact absurd hneg (by linarith)
  · exact ⟨1, rfl, by norm_num⟩
  · exact ⟨2, rfl, by norm_num⟩
  · exact ⟨3, rfl, by norm_num⟩
  · exact ⟨4, rfl, by norm_num⟩

/-- Witness for C6 at x = 6: forward code 3, reverse code 2 = 5 - 3. -/
theorem reverse_map_eq_five_sub_forward_witness :
    ∃ k : ℚ, map_series (some 6) = some k ∧
      map_series_reverse (some 6) = some (5 - k) :=
  reverse_map_eq_five_sub_forward 6 (by norm_num) (by norm_num)

/-- C2 counterexample. The claim maps the month/day/year string "01/15/2024"
to "2024-01-15"; the positional extraction in the code actually produces a
garbled string (the three dash-joined fields are "01/1", "24" and a slash
followed by "2"). -/
theorem date_conversion_counterexample :
    map_series_american_to_iso_date ["01/15/2024"] = ["01/1-24-/2"] ∧
    american_to_iso_date "01/15/2024" ≠ "2024-01-15" := by
  constructor
  · decide
  · decide

/-- C2 amended. The conversion is fixed positional extraction: characters 0-3
become the first dash-separated field, characters 8-9 the second and
characters 5-6 the third.  A 10-character source date therefore has to be
written in year/day/month order (e.g. "2024/15/01") for the result to be the
ISO form YYYY-MM-DD; the month/day/year string "01/15/2024" instead yields a
garbled string rather than "2024-01-15". -/
theorem date_conversion_positional
    (c0 c1 c2 c3 c4 c5 c6 c7 c8 c9 : Char) :
    american_to_iso_date (String.mk [c0, c1, c2, c3, c4, c5, c6, c7, c8, c9]) =
      String.mk [c0, c1, c2, c3, '-', c8, c9, '-', c5, c6] := rfl

/-- C4 counterexample. Two sessions on the same day: `set_index` does not
deduplicate, so the transform returns two rows carrying the same date key,
and both rows' values survive — the target table does not have exactly one
row per distinct date and no last-write-wins overwrite happens. -/
theorem duplicate_date_counterexample :
    (parse_dataframe_HRV_to_intervals [morningRow, eveningRow]).index =
      ["2024-01-15", "2024-01-15"] ∧
    (parse_dataframe_HRV_to_intervals [morningRow, eveningRow]).index.dedup =
      ["2024-01-15"] ∧
    (parse_dataframe_HRV_to_intervals [morningRow, eveningRow]).cols.head? =
      some ("hrv", [some 45, some 50]) := by
  refine ⟨by decide, by decide, by decide⟩

/-- C4 amended. The target table has exactly one row per source row that
passes the time filter, keyed by the converted date in input order; rows that
convert to the same date each appear as separate rows with equal keys (the
transform performs no deduplication or overwrite), and every column has one
entry per filtered row. -/
theorem one_row_per_filtered_source_row (batch : List SourceRow) :
    (parse_dataframe_HRV_to_intervals batch).index =
      (batch.filter (fun r => r.time.isSome)).map
        (fun r => american_to_iso_date r.date) ∧
    (parse_dataframe_HRV_to_intervals batch).cols.map (fun p => p.2.length) =
      List.replicate 8 (batch.filter (fun r => r.time.isSome)).length := by
  constructor <;>
    simp [parse_dataframe_HRV_to_intervals, unpivoted_data, List.map_map,
      Function.comp, List.replicate]

/-- C1. The transform computes the "Alcohol" column into the intermediate
frame (the loop writes it into `data`), but the returned table is built from
scratch out of only the eight fixed target columns, so the custom column
never reaches the output: on the end-to-end example batch the returned
column set has no "Alcohol", even though the unpivoted value 1.0 was
computed. -/
theorem custom_columns_never_reach_output :
    (parse_dataframe_HRV_to_intervals [exampleRow]).cols.map (fun p => p.1) =
      ["hrv", "hrvSDNN", "soreness", "fatigue", "stress", "mood",
       "motivation", "sleepQuality"] ∧
    "Alcohol" ∉ (parse_dataframe_HRV_to_intervals [exampleRow]).cols.map
      (fun p => p.1) ∧
    (unpivoted_data [exampleRow]).extra = [("Alcohol", [some 1])] ∧
    (parse_dataframe_HRV_to_intervals [exampleRow]).index = ["2024-01-15"] := by
  refine ⟨by decide, by decide, by decide, by decide⟩

/-- C7. When the digest of the freshly downloaded file equals the digest of
the previously cached file, the per-user sync stops with no transform and no
upload; when no cached file exists (first run), the sync proceeds to
transform the parsed CSV and upload it. -/
theorem sync_skips_unchanged_and_uploads_first_run (md5 : Bytes → ℕ)
    (read_csv : Bytes → List SourceRow) (cached remote : Bytes) :
    (md5 cached = md5 remote →
      sync md5 read_csv (some cached) remote = SyncOutcome.unchanged ∧
      uploads_performed (sync md5 read_csv (some cached) remote) = 0) ∧
    (sync md5 read_csv none remote =
      SyncOutcome.uploaded (parse_dataframe_HRV_to_intervals (read_csv remote)) ∧
      uploads_performed (sync md5 read_csv none remote) = 1) := by
  constructor
  · intro hmd
    constructor
    · simp [sync, hmd]
    · simp [sync, hmd, uploads_performed]
  · constructor
    · simp [sync]
    · simp [sync, uploads_performed]

/-- Witness for C7: with a constant digest function, re-downloading identical
content is skipped, and a first run (no cached file) uploads the transform of
the parsed data. -/
theorem sync_skips_unchanged_witness :
    sync (fun _ => 0) (fun _ => []) (some []) [] = SyncOutcome.unchanged ∧
    sync (fun _ => 0) (fun _ => []) none [] =
      SyncOutcome.uploaded (parse_dataframe_HRV_to_intervals []) :=
  ⟨((sync_skips_unchanged_and_uploads_first_run (fun _ => 0) (fun _ => [])
      [] []).1 rfl).1,
   (sync_skips_unchanged_and_uploads_first_run (fun _ => 0) (fun _ => [])
      [] []).2.1⟩

/-- C8. A source row whose time field is absent never influences the target
table: the transform of any batch equals the transform of the batch with all
time-missing rows removed, and the target has exactly one row per
time-carrying source row, whatever the other fields of the dropped rows
contain. -/
theorem rows_without_time_are_dropped (batch : List SourceRow) :
    parse_dataframe_HRV_to_intervals batch =
      parse_dataframe_HRV_to_intervals
        (batch.filter (fun r => r.time.isSome)) ∧
    (parse_dataframe_HRV_to_intervals batch).index.length =
      (batch.filter (fun r => r.time.isSome)).length := by
  have hff : (batch.filter (fun r => r.time.isSome)).filter
      (fun r => r.time.isSome) = batch.filter (fun r => r.time.isSome) := by
    rw [List.filter_filter]
    simp
  constructor
  · unfold parse_dataframe_HRV_to_intervals unpivoted_data
    rw [hff]
  · simp [parse_dataframe_HRV_to_intervals, unpivoted_data]

/-- C9. Every configured user is processed, in order, whatever errors the
individual syncs raise: a failure is caught at the loop boundary, recorded,
and never aborts the remaining users. -/
theorem one_failure_never_aborts_batch (syncUser : String → Except String Unit)
    (users : List String) :
    (run_users syncUser users).map (fun p => p.1) = users ∧
    (run_users syncUser users).length = users.length := by
  induction users with
  | nil => exact ⟨rfl, rfl⟩
  | cons u rest ih =>
      cases hsync : syncUser u <;>
        simpa [run_users, hsync] using ih

/-- C10 counterexample. `re.match` only anchors at the start: an athlete id
with trailing junk after `i1` still validates, and a 25-word-character api
key still validates, refuting the claimed "and nothing else" / "exactly 24"
characterizations. -/
theorem validators_accept_longer_strings :
    validate_athlete_id "i1x" = true ∧
    athlete_id_exact_match "i1x" = false ∧
    validate_api_key "abcdefghij0123456789_BCDE" = true ∧
    api_key_exact_match "abcdefghij0123456789_BCDE" = false := by
  refine ⟨by decide, by decide, by decide, by decide⟩

/-- C10 amended. `validate_athlete_id` returns true iff its argument starts
with the letter i followed by at least one digit (later characters are
unconstrained), and `validate_api_key` returns true iff its argument has at
least 24 characters and its first 24 characters are word characters (later
characters are unconstrained). -/
theorem validators_match_left_anchored_only (s : String) :
    (validate_athlete_id s = true ↔
      ∃ d rest, s.data = 'i' :: d :: rest ∧ d.isDigit = true) ∧
    (validate_api_key s = true ↔
      24 ≤ s.data.length ∧ (s.data.take 24).all isWordChar = true) := by
  constructor
  · unfold validate_athlete_id
    cases hs : s.data with
    | nil => simp
    | cons c cs =>
        cases cs with
        | nil => simp
        | cons d rest =>
            simp only [Bool.and_eq_true, decide_eq_true_eq]
            constructor
            · rintro ⟨hc, hdig⟩
              exact ⟨d, rest, by rw [hc], hdig⟩
            · rintro ⟨d', rest', heq, hdig⟩
              cases heq
              exact ⟨rfl, hdig⟩
  · unfold validate_api_key
    simp [Bool.and_eq_true]

/-- Witness for C10 amended, at concrete strings on both sides of each iff. -/
theorem validators_match_left_anchored_only_witness :
    validate_athlete_id "i1extra" = true ∧
    validate_api_key "abcdefghij0123456789_BCD" = true :=
  ⟨(validators_match_left_anchored_only "i1extra").1.mpr
      ⟨'1', ['e', 'x', 't', 'r', 'a'], by decide, by decide⟩,
   (validators_match_left_anchored_only "abcdefghij0123456789_BCD").2.mpr
      ⟨by decide, by decide⟩⟩

end HRV4Intervals
